import Mathlib

/-!
Verification development for the `lux` batch media-download orchestrator
(`app/app.go`).  The Go code is shallowly embedded: the CLI flag values
become the `Ctx` structure, the three external collaborators (extraction,
download, JSON encoding) and the filesystem become explicit function
parameters (`Env`, `FileSystem`), and the side effects of one run are
recorded as an explicit event trace.  Errors (Go `error` values) are
modelled as opaque strings.
-/

namespace Lux

/-- Go `error` values are opaque to the orchestrator; they are only stored
and propagated, never inspected, so a string model suffices. -/
abbrev Err := String

/-- The whitespace test of Go `unicode.IsSpace` restricted to the Latin-1
code points it recognises: tab, newline, vertical tab, form feed, carriage
return, space, next line (U+0085) and no-break space (U+00A0).  Code points
above Latin-1 with the Unicode space property are not needed by any run of
the orchestrator modelled here. -/
def goIsSpace (ch : Char) : Bool :=
  ch.toNat = 9 || ch.toNat = 10 || ch.toNat = 11 || ch.toNat = 12 ||
  ch.toNat = 13 || ch.toNat = 32 || ch.toNat = 0x85 || ch.toNat = 0xA0

/-- Go `strings.TrimSpace`: remove leading and trailing whitespace. -/
def trimSpace (s : String) : String :=
  String.mk ((((s.toList.dropWhile goIsSpace).reverse).dropWhile goIsSpace).reverse)

instance exceptDecEq {α : Type} [DecidableEq α] : DecidableEq (Except Err α) :=
  fun a b =>
    match a, b with
    | .ok x, .ok y =>
      if h : x = y then isTrue (by rw [h])
      else isFalse (by intro hc; cases hc; exact h rfl)
    | .ok _, .error _ => isFalse (fun hc => Except.noConfusion hc)
    | .error _, .ok _ => isFalse (fun hc => Except.noConfusion hc)
    | .error e, .error f =>
      if h : e = f then isTrue (by rw [h])
      else isFalse (by intro hc; cases hc; exact h rfl)

/-- The filesystem as seen through the three calls `app.go` makes:
`os.Stat` (modelled by whether it succeeds), `os.ReadFile` and `os.Open`
(an opened file is modelled by its contents, which is all
`utils.ParseInputFile` consumes from it). -/
structure FileSystem where
  statOk : String → Bool
  readFile : String → Except Err String
  openFile : String → Except Err String

/-- The resolved CLI flag values read by the `Action` closure and by
`download` in `app.go` (`cli.Context` accessors).  The Go flags `start`
and `end` appear as `itemStart`/`itemEnd` (`end` is reserved in Lean). -/
structure Ctx where
  debug : Bool
  silent : Bool
  info : Bool
  json : Bool
  cookie : String
  playlist : Bool
  userAgent : String
  refer : String
  streamFormat : String
  file : String
  outputPath : String
  outputName : String
  fileNameLength : Nat
  caption : Bool
  itemStart : Nat
  itemEnd : Nat
  items : String
  multiThread : Bool
  retry : Nat
  chunkSize : Nat
  thread : Nat
  aria2 : Bool
  aria2Token : String
  aria2Addr : String
  aria2Method : String
  youkuCcode : String
  youkuCkey : String
  youkuPassword : String
  episodeTitleOnly : Bool

/-- `extractors.Options` as built at `app.go:270-281`. -/
structure ExtractorsOptions where
  playlist : Bool
  items : String
  itemStart : Nat
  itemEnd : Nat
  threadNumber : Nat
  episodeTitleOnly : Bool
  cookie : String
  youkuCcode : String
  youkuCkey : String
  youkuPassword : String
deriving DecidableEq, Repr

/-- `downloader.Options` as built at `app.go:299-316`. -/
structure DownloaderOptions where
  silent : Bool
  infoOnly : Bool
  stream : String
  refer : String
  outputPath : String
  outputName : String
  fileNameLength : Nat
  caption : Bool
  multiThread : Bool
  threadNumber : Nat
  retryTimes : Nat
  chunkSizeMB : Nat
  useAria2RPC : Bool
  aria2Token : String
  aria2Method : String
  aria2Addr : String
deriving DecidableEq, Repr

/-- `request.Options` as built at `app.go:236-243`. -/
structure RequestOptions where
  retryTimes : Nat
  cookie : String
  userAgent : String
  refer : String
  debug : Bool
  silent : Bool
deriving DecidableEq, Repr

/-- One `*extractors.Data` element: its `Err` field, which is all the
orchestrator inspects, plus an opaque identifier standing for the payload
that is forwarded verbatim to the download collaborator. -/
structure MediaData where
  err : Option Err
  id : Nat
deriving DecidableEq, Repr

/-- Observable collaborator invocations of one run, in program order:
`extractors.Extract`, the JSON `Encode` (with the encoder settings
`SetIndent(prefix, indent)` and `SetEscapeHTML` recorded), and
`Downloader.Download`. -/
inductive Event where
  | extractCall (url : String) (opts : ExtractorsOptions)
  | encodeCall (data : List MediaData) (indentPrefix indentValue : String) (escapeHTML : Bool)
  | downloadCall (item : MediaData)
deriving DecidableEq, Repr

/-- The external collaborators (§6 of the spec): extraction, per-item
download (`none` = success), JSON serialization of one target's raw
extraction result (`none` = success), and `utils.ParseInputFile`
(contents, items spec, start, end). -/
structure Env where
  extract : String → ExtractorsOptions → Except Err (List MediaData)
  downloadOne : DownloaderOptions → MediaData → Option Err
  encode : List MediaData → Option Err
  parseInputFile : String → String → Nat → Nat → List String

/-- `extractors.Options` value passed at `app.go:270-281`; note the
`Cookie` field is the raw flag value `c.String("cookie")`. -/
def extractOptions (c : Ctx) : ExtractorsOptions :=
  { playlist := c.playlist
    items := c.items
    itemStart := c.itemStart
    itemEnd := c.itemEnd
    threadNumber := c.thread
    episodeTitleOnly := c.episodeTitleOnly
    cookie := c.cookie
    youkuCcode := c.youkuCcode
    youkuCkey := c.youkuCkey
    youkuPassword := c.youkuPassword }

/-- `downloader.Options` value passed at `app.go:299-316`. -/
def downloaderOptions (c : Ctx) : DownloaderOptions :=
  { silent := c.silent
    infoOnly := c.info
    stream := c.streamFormat
    refer := c.refer
    outputPath := c.outputPath
    outputName := c.outputName
    fileNameLength := c.fileNameLength
    caption := c.caption
    multiThread := c.multiThread
    threadNumber := c.thread
    retryTimes := c.retry
    chunkSizeMB := c.chunkSize
    useAria2RPC := c.aria2
    aria2Token := c.aria2Token
    aria2Method := c.aria2Method
    aria2Addr := c.aria2Addr }

/-- `request.Options` value passed to `request.SetOptions` at
`app.go:236-243`, with `cookie` the value resolved by the cookie
resolver. -/
def requestOptions (c : Ctx) (cookie : String) : RequestOptions :=
  { retryTimes := c.retry
    cookie := cookie
    userAgent := c.userAgent
    refer := c.refer
    debug := c.debug
    silent := c.silent }

/-- The item loop of `download` (`app.go:317-328`): an item whose `Err`
field is set has its error appended and the download call skipped
(`continue`); otherwise `Download` is invoked and a failure is appended.
Returns the error accumulator (in item order) and the trace of download
invocations. -/
def itemLoop (env : Env) (opts : DownloaderOptions) : List MediaData → List Err × List Event
  | [] => ([], [])
  | item :: rest =>
    match item.err with
    | some e =>
      let (errs, evs) := itemLoop env opts rest
      (e :: errs, evs)
    | none =>
      match env.downloadOne opts item with
      | some e =>
        let (errs, evs) := itemLoop env opts rest
        (e :: errs, Event.downloadCall item :: evs)
      | none =>
        let (errs, evs) := itemLoop env opts rest
        (errs, Event.downloadCall item :: evs)

/-- The per-target pipeline `download` (`app.go:269-333`).  Extraction
failure is returned as-is (preparation failure, zero items attempted).
In `json` mode the raw extraction result is encoded with indent `"\t"`,
prefix `""` and HTML escaping off, and the encoder's error, if any, is
returned.  Otherwise the item loop runs and the first accumulated error,
if any, is returned (`errors[0]`). -/
def download (env : Env) (c : Ctx) (videoURL : String) : Except Err Unit × List Event :=
  match env.extract videoURL (extractOptions c) with
  | .error e => (.error e, [Event.extractCall videoURL (extractOptions c)])
  | .ok data =>
    if c.json then
      match env.encode data with
      | some e =>
        (.error e,
         [Event.extractCall videoURL (extractOptions c),
          Event.encodeCall data "" "\t" false])
      | none =>
        (.ok (),
         [Event.extractCall videoURL (extractOptions c),
          Event.encodeCall data "" "\t" false])
    else
      let (errs, evs) := itemLoop env (downloaderOptions c) data
      (match errs with
       | [] => Except.ok ()
       | e :: _ => Except.error e,
       Event.extractCall videoURL (extractOptions c) :: evs)

/-- Result of the target loop at `app.go:245-256`: the `isErr` flag, the
emitted diagnostics (failing target, its error) in emission order, and the
concatenated event trace. -/
structure BatchResult where
  isErr : Bool
  diags : List (String × Err)
  events : List Event
deriving DecidableEq, Repr

/-- The batch orchestrator loop (`app.go:245-256`): each target is run
through `download`; a failure prints a diagnostic naming the target and
its error and sets `isErr`; the loop always continues to the next
target. -/
def runBatch (env : Env) (c : Ctx) : List String → BatchResult
  | [] => { isErr := false, diags := [], events := [] }
  | url :: rest =>
    let (res, evs) := download env c url
    let br := runBatch env c rest
    match res with
    | .error e => { isErr := true, diags := (url, e) :: br.diags, events := evs ++ br.events }
    | .ok _ => { isErr := br.isErr, diags := br.diags, events := evs ++ br.events }

/-- Exit status selection (`app.go:257-260`): `cli.Exit("", 1)` when any
target failed, normal return (status 0) otherwise. -/
def batchExit (br : BatchResult) : Nat :=
  if br.isErr then 1 else 0

/-- The input aggregation of `app.go:202-217`: start from the CLI
positional arguments; when the `file` flag is set, open the file (an open
failure is returned, i.e. fatal) and append the identifiers produced by
`utils.ParseInputFile` in collaborator order. -/
def aggregateArgs (fs : FileSystem) (env : Env) (c : Ctx) (cliArgs : List String) :
    Except Err (List String) :=
  if c.file ≠ "" then
    match fs.openFile c.file with
    | .error e => .error e
    | .ok contents =>
      .ok (cliArgs ++ env.parseInputFile contents c.items c.itemStart c.itemEnd)
  else
    .ok cliArgs

/-- The cookie resolver (`app.go:223-234`): an empty value is kept; when
`os.Stat` succeeds on the value, the file is read (a read failure is
returned, i.e. fatal) and the trimmed contents replace the value; any
other value is kept unchanged. -/
def resolveCookie (fs : FileSystem) (cookie : String) : Except Err String :=
  if cookie ≠ "" then
    if fs.statOk cookie then
      match fs.readFile cookie with
      | .error e => .error e
      | .ok data => .ok (trimSpace data)
    else
      .ok cookie
  else
    .ok cookie

/-- Outcome of a run that passed all preconditions: the process exit
status, the `request.Options` installed by `request.SetOptions`, and the
batch result. -/
structure RunResult where
  exit : Nat
  reqOpts : RequestOptions
  batch : BatchResult
deriving DecidableEq, Repr

/-- The `Action` closure (`app.go:201-261`): aggregate inputs, fail with
`"too few arguments"` on an empty work list, resolve the cookie (a read
failure aborts the run), install the request options, then run the batch
loop; the final status is 1 when any target failed, else 0.  A `.error`
result aborts before the target loop: no extraction or download event
exists in that case. -/
def action (env : Env) (fs : FileSystem) (c : Ctx) (cliArgs : List String) :
    Except Err RunResult :=
  match aggregateArgs fs env c cliArgs with
  | .error e => .error e
  | .ok args =>
    if args.length < 1 then
      .error "too few arguments"
    else
      match resolveCookie fs c.cookie with
      | .error e => .error e
      | .ok cookie =>
        let br := runBatch env c args
        .ok { exit := batchExit br, reqOpts := requestOptions c cookie, batch := br }

/-- The items passed to `Downloader.Download` in a trace, in call order. -/
def downloadCalls (evs : List Event) : List MediaData :=
  evs.filterMap (fun ev =>
    match ev with
    | Event.downloadCall item => some item
    | _ => none)

/-- The URLs passed to `extractors.Extract` in a trace, in call order. -/
def extractUrls (evs : List Event) : List String :=
  evs.filterMap (fun ev =>
    match ev with
    | Event.extractCall url _ => some url
    | _ => none)

/-- The `Cookie` option received by each `extractors.Extract` call in a
trace, in call order. -/
def extractCookies (evs : List Event) : List String :=
  evs.filterMap (fun ev =>
    match ev with
    | Event.extractCall _ opts => some opts.cookie
    | _ => none)

/-- Specification-level view of the item loop's accumulator: the item's
own error when set, otherwise the download collaborator's error when the
call fails, in item order. -/
def recordedErrs (env : Env) (opts : DownloaderOptions) (data : List MediaData) : List Err :=
  data.filterMap (fun item =>
    match item.err with
    | some e => some e
    | none => env.downloadOne opts item)

/-- Specification-level view of the batch trace: the per-target traces
concatenated in target order (target N+1 strictly after target N). -/
def downloadTraces (env : Env) (c : Ctx) : List String → List Event
  | [] => []
  | u :: rest => (download env c u).snd ++ downloadTraces env c rest

/-- Whether a per-target outcome is a failure. -/
def isFailure (r : Except Err Unit) : Bool :=
  match r with
  | .ok _ => false
  | .error _ => true

/-! ### Concrete collaborator stubs used to exercise the theorems -/

/-- Stub collaborators: target `"bad"` fails extraction, `"empty"` yields
no items, any other target yields one good item and one item carrying an
item-level error; the download collaborator succeeds on item 1 only. -/
def env0 : Env :=
  { extract := fun u _ =>
      if u = "bad" then .error "boom"
      else if u = "empty" then .ok []
      else .ok [{ err := none, id := 1 }, { err := some "itemerr", id := 2 }]
    downloadOne := fun _ item => if item.id = 1 then none else some "dlerr"
    encode := fun _ => none
    parseInputFile := fun _ _ _ _ => ["a"] }

/-- Stub collaborators whose serializer always fails. -/
def envEncErr : Env :=
  { env0 with encode := fun _ => some "encerr" }

/-- Stub collaborators where every extracted item carries an item-level
error. -/
def envAllErr : Env :=
  { env0 with extract := fun _ _ =>
      Except.ok [{ err := some "e1", id := 1 }, { err := some "e2", id := 2 }] }

/-- Stub filesystem: `"ck"` is the only existing path and holds a cookie
with surrounding whitespace; `"f"` is the only openable input file. -/
def fs0 : FileSystem :=
  { statOk := fun p => p = "ck"
    readFile := fun p => if p = "ck" then .ok "  token=xyz\n" else .error "noent"
    openFile := fun p => if p = "f" then .ok "lines" else .error "openfail" }

/-- Stub filesystem where `"ck"` exists but every read fails. -/
def fsReadErr : FileSystem :=
  { statOk := fun p => p = "ck"
    readFile := fun _ => .error "ioerr"
    openFile := fun _ => .error "openfail" }

/-- Baseline flag values: the defaults declared by the flag set of
`app.go`, with every optional string flag left empty. -/
def ctx0 : Ctx :=
  { debug := false
    silent := false
    info := false
    json := false
    cookie := ""
    playlist := false
    userAgent := ""
    refer := ""
    streamFormat := ""
    file := ""
    outputPath := ""
    outputName := ""
    fileNameLength := 255
    caption := false
    itemStart := 1
    itemEnd := 0
    items := ""
    multiThread := false
    retry := 10
    chunkSize := 1
    thread := 10
    aria2 := false
    aria2Token := ""
    aria2Addr := "localhost:6800"
    aria2Method := "http"
    youkuCcode := "0502"
    youkuCkey := ""
    youkuPassword := ""
    episodeTitleOnly := false }

/-- Baseline flags with `json` mode on. -/
def ctxJson : Ctx := { ctx0 with json := true }

/-- Baseline flags with the cookie flag set to the path `"ck"`. -/
def ctxCk : Ctx := { ctx0 with cookie := "ck" }

/-- Baseline flags with the input-file flag set to `"f"`. -/
def ctxFile : Ctx := { ctx0 with file := "f" }

/-- The run result of the concrete scenario where the cookie flag holds
the path `"ck"` of an existing cookie file (it is defined; the default
branch is unreachable). -/
def r0 : RunResult :=
  match action env0 fs0 ctxCk ["u"] with
  | .ok r => r
  | .error _ =>
    { exit := 0
      reqOpts := requestOptions ctxCk ""
      batch := { isErr := false, diags := [], events := [] } }

/-! ### Trace lemmas -/

lemma itemLoop_eq (env : Env) (opts : DownloaderOptions) :
    ∀ data : List MediaData,
      itemLoop env opts data =
        (recordedErrs env opts data,
         (data.filter (fun item => item.err.isNone)).map Event.downloadCall)
  | [] => rfl
  | item :: rest => by
    have ih := itemLoop_eq env opts rest
    cases h : item.err with
    | some e =>
      simp [itemLoop, recordedErrs, h, ih, List.filter_cons]
    | none =>
      cases hd : env.downloadOne opts item with
      | some e =>
        simp [itemLoop, recordedErrs, h, hd, ih, List.filter_cons]
      | none =>
        simp [itemLoop, recordedErrs, h, hd, ih, List.filter_cons]

lemma downloadCalls_append (evs evs' : List Event) :
    downloadCalls (evs ++ evs') = downloadCalls evs ++ downloadCalls evs' :=
  List.filterMap_append evs evs' _

lemma extractUrls_append (evs evs' : List Event) :
    extractUrls (evs ++ evs') = extractUrls evs ++ extractUrls evs' :=
  List.filterMap_append evs evs' _

lemma extractCookies_append (evs evs' : List Event) :
    extractCookies (evs ++ evs') = extractCookies evs ++ extractCookies evs' :=
  List.filterMap_append evs evs' _

lemma downloadCalls_map_downloadCall (items : List MediaData) :
    downloadCalls (items.map Event.downloadCall) = items := by
  induction items with
  | nil => rfl
  | cons item rest ih => simp [downloadCalls, List.filterMap_cons] at ih ⊢; exact ih

lemma extractUrls_map_downloadCall (items : List MediaData) :
    extractUrls (items.map Event.downloadCall) = [] := by
  induction items with
  | nil => rfl
  | cons item rest ih => simp [extractUrls, List.filterMap_cons, ih]

lemma extractCookies_map_downloadCall (items : List MediaData) :
    extractCookies (items.map Event.downloadCall) = [] := by
  induction items with
  | nil => rfl
  | cons item rest ih => simp [extractCookies, List.filterMap_cons, ih]

lemma extractUrls_download (env : Env) (c : Ctx) (u : String) :
    extractUrls (download env c u).snd = [u] := by
  unfold download
  cases hex : env.extract u (extractOptions c) with
  | error e => simp [extractUrls, List.filterMap_cons]
  | ok data =>
    by_cases hj : c.json
    · cases henc : env.encode data <;>
        simp [hj, henc, extractUrls, List.filterMap_cons]
    · simp only [hj, if_false, Bool.false_eq_true, itemLoop_eq]
      simp [extractUrls, List.filterMap_cons, extractUrls_map_downloadCall]

lemma extractCookies_download (env : Env) (c : Ctx) (u : String) :
    extractCookies (download env c u).snd = [c.cookie] := by
  unfold download
  cases hex : env.extract u (extractOptions c) with
  | error e => simp [extractCookies, List.filterMap_cons, extractOptions]
  | ok data =>
    by_cases hj : c.json
    · cases henc : env.encode data <;>
        simp [hj, henc, extractCookies, List.filterMap_cons, extractOptions]
    · simp only [hj, if_false, Bool.false_eq_true, itemLoop_eq]
      simp [extractCookies, List.filterMap_cons, extractCookies_map_downloadCall,
        extractOptions]

lemma runBatch_events (env : Env) (c : Ctx) :
    ∀ targets : List String,
      (runBatch env c targets).events = downloadTraces env c targets
  | [] => rfl
  | u :: rest => by
    have ih := runBatch_events env c rest
    cases hd : download env c u with
    | mk fst snd =>
      cases fst with
      | error e => simp [runBatch, downloadTraces, hd, ih]
      | ok v => simp [runBatch, downloadTraces, hd, ih]

lemma runBatch_diags (env : Env) (c : Ctx) :
    ∀ targets : List String,
      (runBatch env c targets).diags =
        targets.filterMap (fun u =>
          match (download env c u).fst with
          | .error e => some (u, e)
          | .ok _ => none)
  | [] => rfl
  | u :: rest => by
    have ih := runBatch_diags env c rest
    cases hd : download env c u with
    | mk fst snd =>
      cases fst with
      | error e => simp [runBatch, hd, List.filterMap_cons, ih]
      | ok v => simp [runBatch, hd, List.filterMap_cons, ih]

lemma runBatch_isErr (env : Env) (c : Ctx) :
    ∀ targets : List String,
      (runBatch env c targets).isErr =
        targets.any (fun u => isFailure (download env c u).fst)
  | [] => rfl
  | u :: rest => by
    have ih := runBatch_isErr env c rest
    cases hd : download env c u with
    | mk fst snd =>
      cases fst with
      | error e => simp [runBatch, hd, isFailure, ih]
      | ok v => simp [runBatch, hd, isFailure, ih]

lemma isFailure_eq_false_iff (r : Except Err Unit) :
    isFailure r = false ↔ r = .ok () := by
  cases r with
  | error e => simp [isFailure]
  | ok v => cases v; simp [isFailure]

lemma download_extract_error (env : Env) (c : Ctx) (url : String) (e : Err)
    (hex : env.extract url (extractOptions c) = .error e) :
    download env c url = (.error e, [Event.extractCall url (extractOptions c)]) := by
  unfold download
  rw [hex]

lemma download_nonjson (env : Env) (c : Ctx) (url : String) (data : List MediaData)
    (hjson : c.json = false) (hex : env.extract url (extractOptions c) = .ok data) :
    download env c url =
      ((match recordedErrs env (downloaderOptions c) data with
        | [] => Except.ok ()
        | e :: _ => Except.error e),
       Event.extractCall url (extractOptions c) ::
         (data.filter (fun item => item.err.isNone)).map Event.downloadCall) := by
  unfold download
  rw [hex]
  simp [hjson, itemLoop_eq]

lemma download_json (env : Env) (c : Ctx) (url : String) (data : List MediaData)
    (hjson : c.json = true) (hex : env.extract url (extractOptions c) = .ok data) :
    download env c url =
      ((match env.encode data with
        | some e => Except.error e
        | none => Except.ok ()),
       [Event.extractCall url (extractOptions c),
        Event.encodeCall data "" "\t" false]) := by
  unfold download
  rw [hex]
  cases henc : env.encode data <;> simp [hjson, henc]

lemma extractUrls_runBatch (env : Env) (c : Ctx) :
    ∀ targets : List String, extractUrls (runBatch env c targets).events = targets
  | [] => rfl
  | u :: rest => by
    have ih := extractUrls_runBatch env c rest
    cases hd : download env c u with
    | mk fst snd =>
      have hu : extractUrls snd = [u] := by
        have h := extractUrls_download env c u
        rw [hd] at h
        exact h
      cases fst with
      | error e => simp [runBatch, hd, extractUrls_append, hu, ih]
      | ok v => simp [runBatch, hd, extractUrls_append, hu, ih]

lemma extractCookies_runBatch (env : Env) (c : Ctx) :
    ∀ targets : List String,
      extractCookies (runBatch env c targets).events =
        List.replicate targets.length c.cookie
  | [] => rfl
  | u :: rest => by
    have ih := extractCookies_runBatch env c rest
    cases hd : download env c u with
    | mk fst snd =>
      have hu : extractCookies snd = [c.cookie] := by
        have h := extractCookies_download env c u
        rw [hd] at h
        exact h
      cases fst with
      | error e =>
        simp [runBatch, hd, extractCookies_append, hu, ih, List.replicate_succ]
      | ok v =>
        simp [runBatch, hd, extractCookies_append, hu, ih, List.replicate_succ]

lemma runBatch_isErr_false_iff (env : Env) (c : Ctx) (targets : List String) :
    (runBatch env c targets).isErr = false ↔
      ∀ u ∈ targets, (download env c u).fst = Except.ok () := by
  rw [runBatch_isErr, List.any_eq_false]
  constructor
  · intro h u hu
    have hf := h u hu
    rw [Bool.not_eq_true] at hf
    exact (isFailure_eq_false_iff _).mp hf
  · intro h u hu
    rw [Bool.not_eq_true]
    exact (isFailure_eq_false_iff _).mpr (h u hu)

lemma runBatch_isErr_true_iff (env : Env) (c : Ctx) (targets : List String) :
    (runBatch env c targets).isErr = true ↔
      ∃ u ∈ targets, (download env c u).fst ≠ Except.ok () := by
  rw [runBatch_isErr, List.any_eq_true]
  constructor
  · rintro ⟨u, hu, hp⟩
    refine ⟨u, hu, fun hok => ?_⟩
    rw [hok] at hp
    simp [isFailure] at hp
  · rintro ⟨u, hu, hne⟩
    refine ⟨u, hu, ?_⟩
    cases hr : (download env c u).fst with
    | error e => simp [isFailure]
    | ok v => cases v; exact absurd hr hne

/-- C1: for every non-empty target list the batch orchestrator runs the
per-target pipeline on every target in order (the trace is the
concatenation of the per-target traces, so no target is skipped after a
failure), emits one diagnostic naming each failing target and its error,
and the exit status is 0 exactly when every target succeeded and 1 exactly
when at least one target failed. -/
theorem c1_batch_never_aborts_exit_status (env : Env) (c : Ctx)
    (targets : List String) (_hne : targets ≠ []) :
    (runBatch env c targets).events = downloadTraces env c targets ∧
    (runBatch env c targets).diags =
      targets.filterMap (fun u =>
        match (download env c u).fst with
        | .error e => some (u, e)
        | .ok _ => none) ∧
    (batchExit (runBatch env c targets) = 0 ↔
      ∀ u ∈ targets, (download env c u).fst = Except.ok ()) ∧
    (batchExit (runBatch env c targets) = 1 ↔
      ∃ u ∈ targets, (download env c u).fst ≠ Except.ok ()) := by
  refine ⟨runBatch_events env c targets, runBatch_diags env c targets, ?_, ?_⟩
  · constructor
    · intro h0
      have hf : (runBatch env c targets).isErr = false := by
        by_contra hbc
        rw [Bool.not_eq_false] at hbc
        simp [batchExit, hbc] at h0
      exact (runBatch_isErr_false_iff env c targets).mp hf
    · intro hall
      have hf := (runBatch_isErr_false_iff env c targets).mpr hall
      simp [batchExit, hf]
  · constructor
    · intro h1
      have ht : (runBatch env c targets).isErr = true := by
        by_contra hbc
        rw [Bool.not_eq_true] at hbc
        simp [batchExit, hbc] at h1
      exact (runBatch_isErr_true_iff env c targets).mp ht
    · intro hex
      have ht := (runBatch_isErr_true_iff env c targets).mpr hex
      simp [batchExit, ht]

/-- Witness for C1 on a concrete two-target batch: the first target fails
on an item error, the second on a preparation error; both diagnostics are
emitted and the exit status is 1. -/
theorem c1_batch_never_aborts_exit_status_witness :
    (runBatch env0 ctx0 ["u", "bad"]).diags = [("u", "itemerr"), ("bad", "boom")] ∧
    batchExit (runBatch env0 ctx0 ["u", "bad"]) = 1 := by
  have h := c1_batch_never_aborts_exit_status env0 ctx0 ["u", "bad"] (by decide)
  refine ⟨h.2.1.trans (by rfl), ?_⟩
  exact h.2.2.2.mpr ⟨"bad", by decide, by decide⟩

/-- C2: when extraction succeeds (non-json mode) the item loop visits
every item exactly once in original order — the accumulator is the
in-order list of item-level or download errors over the whole sequence,
and the download collaborator is invoked once per error-free item in
order — and the target's outcome is the first accumulated error, or
success when none was accumulated. -/
theorem c2_items_attempted_first_error (env : Env) (c : Ctx) (url : String)
    (data : List MediaData) (hjson : c.json = false)
    (hex : env.extract url (extractOptions c) = .ok data) :
    downloadCalls (download env c url).snd =
      data.filter (fun item => item.err.isNone) ∧
    (itemLoop env (downloaderOptions c) data).fst =
      recordedErrs env (downloaderOptions c) data ∧
    (download env c url).fst =
      (match recordedErrs env (downloaderOptions c) data with
       | [] => Except.ok ()
       | e :: _ => Except.error e) := by
  rw [download_nonjson env c url data hjson hex]
  refine ⟨?_, ?_, rfl⟩
  · simp only [downloadCalls, List.filterMap_cons]
    exact downloadCalls_map_downloadCall _
  · rw [itemLoop_eq]

/-- Witness for C2 on a concrete target with one good and one failing
item: the good item is downloaded, and the outcome is the failing item's
error. -/
theorem c2_items_attempted_first_error_witness :
    downloadCalls (download env0 ctx0 "u").snd = [{ err := none, id := 1 }] ∧
    (download env0 ctx0 "u").fst = Except.error "itemerr" := by
  have h := c2_items_attempted_first_error env0 ctx0 "u"
    [{ err := none, id := 1 }, { err := some "itemerr", id := 2 }] (by rfl) (by rfl)
  exact ⟨h.1.trans (by rfl), h.2.2.trans (by rfl)⟩

/-- C3: when the extraction call itself fails, the target's outcome is
exactly that error, the trace holds the extraction call only, and the
download collaborator is never invoked (zero items attempted). -/
theorem c3_preparation_failure (env : Env) (c : Ctx) (url : String) (e : Err)
    (hex : env.extract url (extractOptions c) = .error e) :
    (download env c url).fst = Except.error e ∧
    downloadCalls (download env c url).snd = [] ∧
    (download env c url).snd = [Event.extractCall url (extractOptions c)] := by
  rw [download_extract_error env c url e hex]
  exact ⟨rfl, rfl, rfl⟩

/-- Witness for C3 on the concrete target `"bad"` whose extraction stub
fails with `"boom"`. -/
theorem c3_preparation_failure_witness :
    (download env0 ctx0 "bad").fst = Except.error "boom" ∧
    downloadCalls (download env0 ctx0 "bad").snd = [] := by
  have h := c3_preparation_failure env0 ctx0 "bad" "boom" (by rfl)
  exact ⟨h.1, h.2.1⟩

/-- C4 fails on the code: with the cookie flag holding the path `"ck"` of
an existing readable file whose trimmed contents are `"token=xyz"`, the
run resolves the cookie to `"token=xyz"` for the request options, yet the
extraction collaborator call receives the raw flag value `"ck"` — the
file path — not the resolved literal. -/
theorem c4_counterexample :
    (action env0 fs0 ctxCk ["u"]).toOption.map (fun r => r.reqOpts.cookie) =
      some "token=xyz" ∧
    (action env0 fs0 ctxCk ["u"]).toOption.map (fun r => extractCookies r.batch.events) =
      some ["ck"] ∧
    ctxCk.cookie = "ck" ∧
    ("ck" : String) ≠ "token=xyz" := by
  refine ⟨by rfl, by rfl, by rfl, by decide⟩

/-- C4 (amended): when a non-empty cookie value names an existing readable
file, the value is resolved once per run to the file's trimmed contents
and that literal is installed in the shared request options before any
target runs; the per-target extraction collaborator call, however,
receives the raw flag value (the file path) for its cookie option in
every call. -/
theorem c4_cookie_resolution_amended (env : Env) (fs : FileSystem) (c : Ctx)
    (cliArgs : List String) (contents : String) (r : RunResult)
    (hck : c.cookie ≠ "") (hstat : fs.statOk c.cookie = true)
    (hread : fs.readFile c.cookie = .ok contents)
    (hrun : action env fs c cliArgs = .ok r) :
    r.reqOpts.cookie = trimSpace contents ∧
    extractCookies r.batch.events =
      List.replicate (extractUrls r.batch.events).length c.cookie := by
  unfold action at hrun
  cases hagg : aggregateArgs fs env c cliArgs with
  | error e => rw [hagg] at hrun; cases hrun
  | ok args =>
    rw [hagg] at hrun
    dsimp only at hrun
    by_cases hlen : args.length < 1
    · rw [if_pos hlen] at hrun; cases hrun
    · rw [if_neg hlen] at hrun
      have hcook : resolveCookie fs c.cookie = .ok (trimSpace contents) := by
        unfold resolveCookie
        rw [if_pos hck, hstat]
        simp [hread]
      rw [hcook] at hrun
      have hr : ({ exit := batchExit (runBatch env c args),
                   reqOpts := requestOptions c (trimSpace contents),
                   batch := runBatch env c args } : RunResult) = r := by
        injection hrun
      subst hr
      refine ⟨rfl, ?_⟩
      rw [extractUrls_runBatch, extractCookies_runBatch]

/-- Witness for the amended C4 on the concrete run with cookie flag
`"ck"`: the request options hold the trimmed file contents and every
extraction call received the raw flag value. -/
theorem c4_cookie_resolution_amended_witness :
    r0.reqOpts.cookie = trimSpace "  token=xyz\n" ∧
    extractCookies r0.batch.events =
      List.replicate (extractUrls r0.batch.events).length ctxCk.cookie :=
  c4_cookie_resolution_amended env0 fs0 ctxCk ["u"] "  token=xyz\n" r0
    (by decide) (by decide) (by decide) (by rfl)

/-- C5: the cookie resolver keeps an empty value; on an existing entry it
returns the entry's contents with surrounding whitespace stripped (so
`"  token=xyz\n"` yields `"token=xyz"`); any other value is returned
unchanged; and a read error on an existing path makes the whole run fail
with that error before the target loop. -/
theorem c5_cookie_resolver (fs : FileSystem) (env : Env) (c : Ctx) (v s : String)
    (e : Err) (cliArgs args : List String) :
    resolveCookie fs "" = .ok "" ∧
    (v ≠ "" → fs.statOk v = true → fs.readFile v = .ok s →
      resolveCookie fs v = .ok (trimSpace s)) ∧
    (v ≠ "" → fs.statOk v = false → resolveCookie fs v = .ok v) ∧
    trimSpace "  token=xyz\n" = "token=xyz" ∧
    (v ≠ "" → fs.statOk v = true → fs.readFile v = .error e →
      resolveCookie fs v = .error e) ∧
    (resolveCookie fs c.cookie = .error e → aggregateArgs fs env c cliArgs = .ok args →
      1 ≤ args.length → action env fs c cliArgs = .error e) := by
  refine ⟨?_, ?_, ?_, ?_, ?_, ?_⟩
  · simp [resolveCookie]
  · intro hv hstat hread
    unfold resolveCookie
    rw [if_pos hv, hstat]
    simp [hread]
  · intro hv hstat
    unfold resolveCookie
    rw [if_pos hv, hstat]
    simp
  · rfl
  · intro hv hstat hread
    unfold resolveCookie
    rw [if_pos hv, hstat]
    simp [hread]
  · intro hres hagg hlen
    unfold action
    rw [hagg]
    dsimp only
    rw [if_neg (by omega), hres]

/-- Witness for C5: the concrete existing path, literal value, and failing
read, plus the fatal run abort on the failing read. -/
theorem c5_cookie_resolver_witness :
    resolveCookie fs0 "ck" = .ok "token=xyz" ∧
    resolveCookie fs0 "token=xyz" = .ok "token=xyz" ∧
    resolveCookie fsReadErr "ck" = .error "ioerr" ∧
    action env0 fsReadErr ctxCk ["u"] = .error "ioerr" := by
  refine ⟨?_, ?_, ?_, ?_⟩
  · exact ((c5_cookie_resolver fs0 env0 ctx0 "ck" "  token=xyz\n" "ioerr" [] []).2.1
      (by decide) (by decide) (by decide)).trans (by rfl)
  · exact (c5_cookie_resolver fs0 env0 ctx0 "token=xyz" "" "ioerr" [] []).2.2.1
      (by decide) (by decide)
  · exact (c5_cookie_resolver fsReadErr env0 ctx0 "ck" "" "ioerr" [] []).2.2.2.2.1
      (by decide) (by decide) (by decide)
  · exact (c5_cookie_resolver fsReadErr env0 ctxCk "" "" "ioerr" ["u"] ["u"]).2.2.2.2.2
      (by decide) (by decide) (by decide)

/-- C6: an empty aggregated work list is the fatal precondition failure
`"too few arguments"`: the run aborts before the cookie step and before
the target loop, so no extraction or download happens and the run is not
a success. -/
theorem c6_empty_work_list_fatal (env : Env) (fs : FileSystem) (c : Ctx)
    (cliArgs : List String) (h : aggregateArgs fs env c cliArgs = .ok []) :
    action env fs c cliArgs = .error "too few arguments" := by
  unfold action
  rw [h]
  rfl

/-- Witness for C6 on the concrete empty input (no CLI argument, no input
file). -/
theorem c6_empty_work_list_fatal_witness :
    action env0 fs0 ctx0 [] = Except.error "too few arguments" :=
  c6_empty_work_list_fatal env0 fs0 ctx0 [] (by rfl)

/-- C7: with an input file configured, the aggregated work list is the
CLI identifiers in order followed by the collaborator-returned
identifiers in order; an unreadable input file is fatal; no deduplication
happens (counts add up), and the batch loop issues exactly one extraction
call per work-list entry, in list order. -/
theorem c7_input_aggregation (fs : FileSystem) (env : Env) (c : Ctx)
    (cliArgs : List String) (contents : String) (e : Err) (hf : c.file ≠ "") :
    (fs.openFile c.file = .error e → aggregateArgs fs env c cliArgs = .error e) ∧
    (fs.openFile c.file = .ok contents →
      aggregateArgs fs env c cliArgs =
        .ok (cliArgs ++ env.parseInputFile contents c.items c.itemStart c.itemEnd) ∧
      (∀ x : String,
        (cliArgs ++ env.parseInputFile contents c.items c.itemStart c.itemEnd).count x =
          cliArgs.count x +
            (env.parseInputFile contents c.items c.itemStart c.itemEnd).count x) ∧
      extractUrls (runBatch env c
          (cliArgs ++ env.parseInputFile contents c.items c.itemStart c.itemEnd)).events =
        cliArgs ++ env.parseInputFile contents c.items c.itemStart c.itemEnd) := by
  constructor
  · intro hopen
    unfold aggregateArgs
    rw [if_pos hf, hopen]
  · intro hopen
    refine ⟨?_, ?_, ?_⟩
    · unfold aggregateArgs
      rw [if_pos hf, hopen]
    · intro x
      simp [List.count_append]
    · exact extractUrls_runBatch env c _

/-- Witness for C7: the CLI argument `"a"` and a file also expanding to
`"a"` keep both occurrences, and both are extracted; a bad file path is
fatal. -/
theorem c7_input_aggregation_witness :
    aggregateArgs fs0 env0 ctxFile ["a"] = .ok ["a", "a"] ∧
    extractUrls (runBatch env0 ctxFile ["a", "a"]).events = ["a", "a"] ∧
    aggregateArgs fsReadErr env0 ctxFile ["a"] = .error "openfail" := by
  have h := (c7_input_aggregation fs0 env0 ctxFile ["a"] "lines" "openfail"
    (by decide)).2 (by decide)
  have hbad := (c7_input_aggregation fsReadErr env0 ctxFile ["a"] "lines" "openfail"
    (by decide)).1 (by decide)
  exact ⟨h.1.trans (by rfl), h.2.2, hbad⟩

/-- C8: in json mode, a target whose extraction succeeds never invokes
the download collaborator; the raw extraction result is serialized once
with tab indentation and HTML escaping off, and a serialization failure
becomes the target's failure outcome — flipping the batch verdict exactly
like a download failure. -/
theorem c8_json_mode (env : Env) (c : Ctx) (url : String) (data : List MediaData)
    (hjson : c.json = true) (hex : env.extract url (extractOptions c) = .ok data) :
    (download env c url).snd =
      [Event.extractCall url (extractOptions c),
       Event.encodeCall data "" "\t" false] ∧
    downloadCalls (download env c url).snd = [] ∧
    (download env c url).fst =
      (match env.encode data with
       | some e => Except.error e
       | none => Except.ok ()) ∧
    (∀ e, env.encode data = some e → (runBatch env c [url]).isErr = true) := by
  refine ⟨?_, ?_, ?_, ?_⟩
  · rw [download_json env c url data hjson hex]
  · rw [download_json env c url data hjson hex]
    rfl
  · rw [download_json env c url data hjson hex]
  · intro e henc
    rw [runBatch_isErr]
    simp [download_json env c url data hjson hex, henc, isFailure]

/-- Witness for C8 with a failing serializer: the trace holds the
extraction call and one encode call with the recorded settings, no
download call happens, and the batch verdict flips. -/
theorem c8_json_mode_witness :
    (download envEncErr ctxJson "u").snd =
      [Event.extractCall "u" (extractOptions ctxJson),
       Event.encodeCall [{ err := none, id := 1 }, { err := some "itemerr", id := 2 }]
         "" "\t" false] ∧
    downloadCalls (download envEncErr ctxJson "u").snd = [] ∧
    (runBatch envEncErr ctxJson ["u"]).isErr = true := by
  have h := c8_json_mode envEncErr ctxJson "u"
    [{ err := none, id := 1 }, { err := some "itemerr", id := 2 }] (by rfl) (by rfl)
  exact ⟨h.1, h.2.1, h.2.2.2 "encerr" (by rfl)⟩

/-- C9: a successful extraction that yields zero items is a success
outcome for the target and the download collaborator is never invoked. -/
theorem c9_empty_extraction_success (env : Env) (c : Ctx) (url : String)
    (hjson : c.json = false) (hex : env.extract url (extractOptions c) = .ok []) :
    (download env c url).fst = Except.ok () ∧
    downloadCalls (download env c url).snd = [] := by
  rw [download_nonjson env c url [] hjson hex]
  exact ⟨rfl, rfl⟩

/-- Witness for C9 on the concrete target `"empty"` whose extraction stub
yields no items. -/
theorem c9_empty_extraction_success_witness :
    (download env0 ctx0 "empty").fst = Except.ok () ∧
    downloadCalls (download env0 ctx0 "empty").snd = [] :=
  c9_empty_extraction_success env0 ctx0 "empty" (by rfl) (by rfl)

/-- C10: in json mode the per-item error flags are never inspected — for
any extracted item list, including one where every item carries an
item-level error, the target succeeds whenever extraction and
serialization succeed, and the batch verdict stays clean. -/
theorem c10_json_ignores_item_flags (env : Env) (c : Ctx) (url : String)
    (data : List MediaData) (hjson : c.json = true)
    (hex : env.extract url (extractOptions c) = .ok data)
    (henc : env.encode data = none) :
    (download env c url).fst = Except.ok () ∧
    (runBatch env c [url]).isErr = false := by
  refine ⟨?_, ?_⟩
  · rw [download_json env c url data hjson hex]
    simp [henc]
  · rw [runBatch_isErr]
    simp [download_json env c url data hjson hex, henc, isFailure]

/-- Witness for C10: every extracted item carries an item-level error,
yet the json-mode run counts the target as a success. -/
theorem c10_json_ignores_item_flags_witness :
    (download envAllErr ctxJson "u").fst = Except.ok () ∧
    (runBatch envAllErr ctxJson ["u"]).isErr = false :=
  c10_json_ignores_item_flags envAllErr ctxJson "u"
    [{ err := some "e1", id := 1 }, { err := some "e2", id := 2 }]
    (by rfl) (by rfl) (by rfl)

end Lux
